import Mathlib

/-
Verification of the SNMP Booster polling engine against its design notes.

The development shallowly embeds the three source modules:
  * shinken/modules/snmp_booster/libs/snmpworker.py
      (dispatcher loop `SNMPWorker.run`, result correlator `callback_get`,
       mapping walker `callback_mapping_next`)
  * shinken/modules/snmp_booster/libs/redisclient.py
      (cache store: `build_key`, `update_service`, `get_service`)
Python dicts are modelled as insertion-ordered association lists,
`None` as `Option.none`, timestamps (`time.time()`) as natural numbers,
and the value type delivered by the transport engine as a type
parameter.  Fallible code paths (an uncaught `KeyError`, an exception
raised by the backing store) are modelled with `Option`.
-/

namespace SnmpBooster

/-! ## Association-list primitives (Python dict operations) -/

/-- Lookup of a key in an insertion-ordered association list
(`d[k]` read and `k in d` membership on a Python dict). -/
def lookupVal {β : Type} (k : String) : List (String × β) → Option β
  | [] => none
  | (k', v) :: rest => if k = k' then some v else lookupVal k rest

/-- Assignment `d[k] = v` on a Python dict: update the existing entry in
place, or append a new entry at the end (insertion order). -/
def setIn {β : Type} (l : List (String × β)) (k : String) (v : β) : List (String × β) :=
  match l with
  | [] => [(k, v)]
  | (k', v') :: rest => if k = k' then (k, v) :: rest else (k', v') :: setIn rest k v

/-- Removal of every entry with the given key. -/
def removeKey {β : Type} (k : String) : List (String × β) → List (String × β)
  | [] => []
  | (k', v) :: rest => if k = k' then removeKey k rest else (k', v) :: removeKey k rest

/-! ## Python string operations

`str.startswith` and `str.replace` are re-implemented over the
character list of the string so that they evaluate inside the kernel;
`str.replace` replaces every non-overlapping occurrence left to right
(an empty pattern, which Python treats specially, does not occur in the
embedded code and is modelled as a no-op). -/

/-- Python `s.startswith(p)`. -/
def pyStartsWith (s p : String) : Bool := p.data.isPrefixOf s.data

/-- Replacement loop of `pyReplace`; the fuel argument (instantiated with
the length of the scanned list, which the loop never exhausts) makes the
recursion structural. -/
def replaceAux (pat repl : List Char) : Nat → List Char → List Char
  | 0, l => l
  | _, [] => []
  | fuel + 1, c :: rest =>
    if pat ≠ [] ∧ pat.isPrefixOf (c :: rest) then
      repl ++ replaceAux pat repl fuel ((c :: rest).drop pat.length)
    else c :: replaceAux pat repl fuel rest

/-- Python `s.replace(pat, repl)`. -/
def pyReplace (s pat repl : String) : String :=
  ⟨replaceAux pat.data repl.data s.data.length s.data⟩

/-! ## Cache store (redisclient.py)

A stored record is the Python value written by `db_conn.set` and decoded
back by `ast.literal_eval`; for the records this module writes the
repr / literal_eval round trip is the identity, so the store is modelled
as holding decoded values directly. -/

/-- Python literal values as persisted in the cache. -/
inductive Value : Type where
  | vint : Int → Value
  | vstr : String → Value
  | vnull : Value
  | dict : List (String × Value) → Value

/-- Recursive merge of two nested mappings: entries of the old mapping
come first in their original order, an entry present in both is
overridden by the new one except that two nested mappings are merged
recursively, and entries only in the new mapping are appended. -/
def mergeAssoc : List (String × Value) → List (String × Value) → List (String × Value)
  | [], ds => ds
  | (k, ov) :: rest, ds =>
    match lookupVal k ds with
    | none => (k, ov) :: mergeAssoc rest ds
    | some dv =>
      match ov, dv with
      | Value.dict o2, Value.dict d2 =>
          (k, Value.dict (mergeAssoc o2 d2)) :: mergeAssoc rest (removeKey k ds)
      | _, _ => (k, dv) :: mergeAssoc rest (removeKey k ds)
termination_by os _ => sizeOf os

/-- Modelled from the spec: `merge_dicts` is imported by redisclient.py
from the repository's `utils` module, which is not among the provided
sources.  Per the spec's cache-store contract: an absent old record
behaves as empty (the new data is taken as is); keys in the new data
override, keys only in the old record are preserved, recursively for
nested mappings; merging structures that are not both mappings is
invalid and yields `none`. -/
def merge_dicts : Option Value → Value → Option Value
  | none, d => some d
  | some o, d =>
    match o, d with
    | Value.dict os, Value.dict ds => some (Value.dict (mergeAssoc os ds))
    | _, _ => none

/-- Backing connection: decoded key-value contents, plus the set of keys
whose read raises an exception in the backing store. -/
structure Conn where
  kv : List (String × Value)
  failing : List String

/-- `DBClient.build_key`: `":".join((str(part1), str(part2)))`. -/
def build_key (part1 part2 : String) : String := part1 ++ ":" ++ part2

/-- `self.db_conn.get(key)`: `none` models the read raising an
exception, `some r` a successful read returning record `r` (or `None`
when the key is absent). -/
def db_get (c : Conn) (key : String) : Option (Option Value) :=
  if key ∈ c.failing then none else some (lookupVal key c.kv)

/-- `self.db_conn.set(key, data)`. -/
def db_set (c : Conn) (key : String) (v : Value) : Conn :=
  { c with kv := setIn c.kv key v }

/-- `DBClient.update_service`: read the existing record, merge the new
data into it, and write the result back.  The outer `none` models the
exception of the unguarded backing read propagating out of the method;
otherwise the returned flag is the error indication of the
`(None, error)` result pair: `true` when the merge was invalid (nothing
is written), `false` after a successful write. -/
def update_service (c : Conn) (host service : String) (data : Value) : Option (Conn × Bool) :=
  let key := build_key host service
  match db_get c key with
  | none => none
  | some old_dict =>
    match merge_dicts old_dict data with
    | none => some (c, true)
    | some merged => some (db_set c key merged, false)

/-- `DBClient.get_service`: point lookup; a read error is caught and
logged and yields `None`, an absent key yields `None`, otherwise the
stored record is decoded and returned. -/
def get_service (c : Conn) (host service : String) : Option Value :=
  match db_get c (build_key host service) with
  | none => none
  | some none => none
  | some (some v) => some v

/-! ## Task queue and dispatcher (SNMPWorker.run) -/

/-- Asynchronous operations of the transport engine. -/
inductive Op : Type where
  | asyncBulkCmd : Op
  | asyncNextCmd : Op
  | asyncGetCmd : Op
deriving DecidableEq, Repr

/-- A queued task: `snmp_task['type']` and `snmp_task['data']` (the
keyword arguments forwarded to the transport engine, left abstract). -/
structure Task (α : Type) where
  type : String
  data : α
deriving DecidableEq, Repr

/-- Submission performed for one task: the `if/elif` chain on
`snmp_task['type']`; a task of any other type is submitted nowhere. -/
def submitOf {α : Type} (t : Task α) : Option (Op × α) :=
  if t.type = "bulk" then some (Op.asyncBulkCmd, t.data)
  else if t.type = "next" then some (Op.asyncNextCmd, t.data)
  else if t.type = "get" then some (Op.asyncGetCmd, t.data)
  else none

/-- Inner `while (not self.mapping_queue.empty()) and task_prepared <= 1`
loop: returns the queue left over and the tasks dequeued, in order. -/
def drainLoop {α : Type} (task_prepared : Nat) : List (Task α) → List (Task α) × List (Task α)
  | [] => ([], [])
  | t :: ts =>
    if task_prepared ≤ 1 then
      let r := drainLoop (task_prepared + 1) ts
      (r.1, t :: r.2)
    else (t :: ts, [])

/-- Observable outcome of one iteration of the outer `while self.must_run`
loop. -/
structure CycleResult (α : Type) where
  remaining : List (Task α)
  dequeued : List (Task α)
  submissions : List (Op × α)
  taskDone : Nat
  dispatcherRuns : Nat
  sleepMs : Nat
  logs : List String
deriving Repr

/-- One cycle of `SNMPWorker.run`: drain up to two tasks, submit each by
type, call `task_done` for each dequeued task, run the transport
dispatcher once iff `task_prepared > 0`, then `time.sleep(0.5)`.  The
loop body contains no logging or reporting call, so `logs` is always
empty. -/
def runCycle {α : Type} (q : List (Task α)) : CycleResult α :=
  let r := drainLoop 0 q
  { remaining := r.1
    dequeued := r.2
    submissions := r.2.filterMap submitOf
    taskDone := r.2.length
    dispatcherRuns := if r.2.length > 0 then 1 else 0
    sleepMs := 500
    logs := [] }

/-! ## Result correlator (callback_get) -/

/-- Owning key of one accumulator entry (`results[oid]['key']`). -/
structure OwnKey where
  host : String
  service : String
  ds_name : String
  oid_type : String
deriving DecidableEq, Repr

/-- One accumulator entry: `{value, check_time, value_last, key}`.
`value_last` models `tmp_result.get('value_last')` (`none` when the
field was never set). -/
structure Entry (α : Type) where
  value : Option α
  check_time : Option Nat
  value_last : Option α
  key : OwnKey
deriving DecidableEq, Repr

/-- `service_result['db_data']`: the per-datasource slot maps plus the
check-time stamps.  Only the slots touched by the correlator are
modelled; each `ds.<name>` sub-dict maps slot names to optional
values. -/
structure DbData (α : Type) where
  ds : List (String × List (String × Option α))
  check_time : Option Nat
  last_check_time : Option Nat
deriving DecidableEq, Repr

/-- `service_result`: the triggering service's result placeholder. -/
structure ServiceResult (α : Type) where
  host : String
  service : String
  db_data : DbData α
  state : String
deriving DecidableEq, Repr

/-- The callback context `cbCtx` together with the output channel:
accumulator (`results`), triggering service placeholder
(`service_result`), and the snapshots put on `result_queue` so far. -/
structure CbState (α : Type) where
  results : List (String × Entry α)
  service_result : ServiceResult α
  result_queue : List (List (String × Entry α))
deriving DecidableEq, Repr

/-- `results[oid]['value'] = value; results[oid]['check_time'] = time.time()`
for an OID already present in the accumulator (absent OIDs are ignored). -/
def updOid {α : Type} (rs : List (String × Entry α)) (oid : String) (v : α) (now : Nat) :
    List (String × Entry α) :=
  rs.map fun p =>
    if p.1 = oid then (p.1, { p.2 with value := some v, check_time := some now }) else p

/-- The `for oid, value in varBinds` update loop; the delivered OID gets
a leading dot prepended (`oid = "." + oid.prettyPrint()`). -/
def applyBinds {α : Type} (now : Nat) (varBinds : List (String × α))
    (rs : List (String × Entry α)) : List (String × Entry α) :=
  varBinds.foldl (fun acc p => updOid acc ("." ++ p.1) p.2 now) rs

/-- Completion test of the accumulator:
`not any([True for oid in results.values() if oid['value'] is None])`. -/
def complete {α : Type} (rs : List (String × Entry α)) : Bool :=
  !(rs.any fun p => p.2.value.isNone)

/-- `".".join(("ds", ds_name, oid_type + "_value_last"))`. -/
def valueLastKey (k : OwnKey) : String :=
  "ds." ++ k.ds_name ++ "." ++ k.oid_type ++ "_value_last"

/-- `".".join(("ds", ds_name, oid_type + "_value"))`. -/
def valueKey (k : OwnKey) : String :=
  "ds." ++ k.ds_name ++ "." ++ k.oid_type ++ "_value"

/-- Filter predicate selecting the accumulator entries that belong to the
triggering service. -/
def matchesService {α : Type} (sr : ServiceResult α) (e : Entry α) : Bool :=
  e.key.host == sr.host && e.key.service == sr.service

/-- Projection of one matching entry into the service record:
`db_data['ds'][ds_name][last_value_key] = tmp_result.get('value_last')`
then `db_data['ds'][ds_name][value_key] = tmp_result.get('value')`.
Yields `none` when `ds_name` is absent from `db_data['ds']` (a `KeyError`
in the source). -/
def projOne {α : Type} (ds : List (String × List (String × Option α))) (e : Entry α) :
    Option (List (String × List (String × Option α))) :=
  match lookupVal e.key.ds_name ds with
  | none => none
  | some sub =>
      some (setIn ds e.key.ds_name
        (setIn (setIn sub (valueLastKey e.key) e.value_last) (valueKey e.key) e.value))

/-- The `for tmp_result in tmp_results` projection loop. -/
def projAll {α : Type} :
    List (String × List (String × Option α)) → List (Entry α) →
      Option (List (String × List (String × Option α)))
  | ds, [] => some ds
  | ds, e :: rest =>
    match projOne ds e with
    | none => none
    | some ds2 => projAll ds2 rest

/-- `callback_get`: update the accumulator from the delivered varBinds,
test completion; on completion put the accumulator on the result queue,
project the entries of the triggering service into its record, stamp
`check_time` into `last_check_time` and a fresh `check_time`, and mark
the state `received`; otherwise only the accumulator changes.  `none`
models the `KeyError` of the projection loop aborting the callback
(after the queue `put` has already happened in the source). -/
def callback_get {α : Type} (now : Nat) (varBinds : List (String × α)) (st : CbState α) :
    Option (CbState α) :=
  let results := applyBinds now varBinds st.results
  if complete results then
    let tmp_results := (results.map Prod.snd).filter (matchesService st.service_result)
    match projAll st.service_result.db_data.ds tmp_results with
    | none => none
    | some ds2 =>
        some { results := results
               service_result :=
                 { st.service_result with
                     state := "received"
                     db_data :=
                       { ds := ds2
                         last_check_time := st.service_result.db_data.check_time
                         check_time := some now } }
               result_queue := st.result_queue ++ [results] }
  else
    some { st with results := results }

/-! ## Mapping walker (callback_mapping_next) -/

/-- The walker context `result`: the dict holds exactly the two keys the
source touches, `finished` and `data` (the wanted instance names, each
mapped to its discovered index or to `None` while unresolved). -/
structure MapResult where
  finished : Bool
  data : List (String × Option String)
deriving DecidableEq, Repr

/-- Python `all(result.values())` on the walker context: the truthiness
of the `finished` flag and of the `data` dict (non-empty). -/
def mapAllValues (r : MapResult) : Bool := r.finished && !r.data.isEmpty

/-- Processing of one `(oid, instance_name)` pair of a table row;
`some b` is an early `return b` out of the callback, `none` falls
through to the next pair. -/
def processPair (mapping_oid : String) (r : MapResult) (oid instance_name : String) :
    MapResult × Option Bool :=
  let oid2 := "." ++ oid
  if !(pyStartsWith oid2 mapping_oid) then
    ({ r with finished := true }, some false)
  else
    let inst := pyReplace oid2 (mapping_oid ++ ".") ""
    let r2 :=
      if (lookupVal instance_name r.data).isSome then
        { r with data := setIn r.data instance_name (some inst) }
      else r
    if mapAllValues r2 then ({ r2 with finished := true }, some false)
    else (r2, none)

/-- The inner `for oid, instance_name in tableRow` loop. -/
def processRow (mapping_oid : String) : MapResult → List (String × String) → MapResult × Option Bool
  | r, [] => (r, none)
  | r, (oid, iname) :: rest =>
    match processPair mapping_oid r oid iname with
    | (r2, some b) => (r2, some b)
    | (r2, none) => processRow mapping_oid r2 rest

/-- `callback_mapping_next`: walk the delivered rows; the returned
boolean is the callback's value (`true` requests another round,
`false` stops the walk). -/
def callback_mapping_next (mapping_oid : String) :
    List (List (String × String)) → MapResult → MapResult × Bool
  | [], r => (r, true)
  | row :: rest, r =>
    match processRow mapping_oid r row with
    | (r2, some b) => (r2, b)
    | (r2, none) => callback_mapping_next mapping_oid rest r2

/-! ## Concrete states for the documented scenarios -/

/-- First scenario update: `{"check_interval":5,"ds":{"x":{"v":1}}}`. -/
def scnD1 : Value :=
  Value.dict [("check_interval", Value.vint 5),
              ("ds", Value.dict [("x", Value.dict [("v", Value.vint 1)])])]

/-- Second scenario update: `{"ds":{"y":{"v":2}}}`. -/
def scnD2 : Value :=
  Value.dict [("ds", Value.dict [("y", Value.dict [("v", Value.vint 2)])])]

/-- Merged scenario record:
`{"check_interval":5,"ds":{"x":{"v":1},"y":{"v":2}}}`. -/
def scnMerged : Value :=
  Value.dict [("check_interval", Value.vint 5),
              ("ds", Value.dict [("x", Value.dict [("v", Value.vint 1)]),
                                 ("y", Value.dict [("v", Value.vint 2)])])]

/-- A simple triggering-service placeholder whose entries live on another
host, so the projection loop has nothing to do. -/
def exSrv : ServiceResult Int :=
  { host := "h", service := "s"
    db_data := { ds := [], check_time := none, last_check_time := none }
    state := "pending" }

def exKeyA : OwnKey := ⟨"h2", "s2", "dA", "max"⟩

def exKeyB : OwnKey := ⟨"h2", "s2", "dB", "max"⟩

/-- Accumulator `{oidA:null, oidB:null}` before any delivery. -/
def exC1st0 : CbState Int :=
  { results := [(".A", ⟨none, none, none, exKeyA⟩), (".B", ⟨none, none, none, exKeyB⟩)]
    service_result := exSrv
    result_queue := [] }

/-- The state after delivering `oidA=1` at time 1: still incomplete. -/
def exC1st1 : CbState Int :=
  { results := [(".A", ⟨some 1, some 1, none, exKeyA⟩), (".B", ⟨none, none, none, exKeyB⟩)]
    service_result := exSrv
    result_queue := [] }

/-- The state after then delivering `oidB=2` at time 2: complete, with
the snapshot emitted exactly once. -/
def exC1st2 : CbState Int :=
  { results := [(".A", ⟨some 1, some 1, none, exKeyA⟩), (".B", ⟨some 2, some 2, none, exKeyB⟩)]
    service_result := { host := "h", service := "s"
                        db_data := { ds := [], check_time := some 2, last_check_time := none }
                        state := "received" }
    result_queue := [[(".A", ⟨some 1, some 1, none, exKeyA⟩),
                      (".B", ⟨some 2, some 2, none, exKeyB⟩)]] }

def exKeyX : OwnKey := ⟨"h", "s", "x", "max"⟩

/-- A state whose record currently holds `ds.x.max_value = 10` while the
accumulator entry carries `value_last = 99`: completing the request lets
the two sources of the `_value_last` slot be told apart. -/
def exC3st0 : CbState Int :=
  { results := [(".1.2", ⟨some 7, some 100, some 99, exKeyX⟩)]
    service_result := { host := "h", service := "s"
                        db_data := { ds := [("x", [("ds.x.max_value", some 10)])]
                                     check_time := some 100, last_check_time := none }
                        state := "pending" }
    result_queue := [] }

def exKeyY : OwnKey := ⟨"h", "s", "y", "max"⟩

/-- A two-datasource state of the triggering service: two accumulator
entries match it, one per datasource name. -/
def exC3mst0 : CbState Int :=
  { results := [(".1.1", ⟨none, none, some 99, exKeyX⟩), (".1.2", ⟨none, none, some 88, exKeyY⟩)]
    service_result := { host := "h", service := "s"
                        db_data := { ds := [("x", [("ds.x.max_value", some 10)]),
                                            ("y", [("ds.y.max_value", some 20)])]
                                     check_time := some 100, last_check_time := none }
                        state := "pending" }
    result_queue := [] }

/-- The full state produced by `callback_get 200 [("1.1", 7), ("1.2", 8)]`
on `exC3mst0`: both matching entries are projected into the record. -/
def exC3mst1 : CbState Int :=
  { results := [(".1.1", ⟨some 7, some 200, some 99, exKeyX⟩),
                (".1.2", ⟨some 8, some 200, some 88, exKeyY⟩)]
    service_result := { host := "h", service := "s"
                        db_data := { ds := [("x", [("ds.x.max_value", some 7),
                                                   ("ds.x.max_value_last", some 99)]),
                                            ("y", [("ds.y.max_value", some 8),
                                                   ("ds.y.max_value_last", some 88)])]
                                     check_time := some 200, last_check_time := some 100 }
                        state := "received" }
    result_queue := [[(".1.1", ⟨some 7, some 200, some 99, exKeyX⟩),
                      (".1.2", ⟨some 8, some 200, some 88, exKeyY⟩)]] }

/-- An already complete accumulator (one entry, on another host). -/
def exC7st0 : CbState Int :=
  { results := [(".A", ⟨some 1, some 1, none, exKeyA⟩)]
    service_result := exSrv
    result_queue := [] }

/-- The state `callback_get 5 []` produces from `exC7st0`: complete
again, snapshot re-emitted, stamps refreshed. -/
def exC7st1 : CbState Int :=
  { results := [(".A", ⟨some 1, some 1, none, exKeyA⟩)]
    service_result := { host := "h", service := "s"
                        db_data := { ds := [], check_time := some 5, last_check_time := none }
                        state := "received" }
    result_queue := [[(".A", ⟨some 1, some 1, none, exKeyA⟩)]] }

/-- Root table OID of the interface-name walk scenario. -/
def exMapOid : String := ".1.3.6.1.2.1.2.2.1.2"

/-- Walker context with wanted names `{eth0, eth1}`, both unresolved. -/
def exMap0 : MapResult := ⟨false, [("eth0", none), ("eth1", none)]⟩

/-- Walker context after row `(".1.3.6.1.2.1.2.2.1.2.1", "eth0")`. -/
def exMap1 : MapResult := ⟨false, [("eth0", some "1"), ("eth1", none)]⟩

/-- Walker context after then row `(".1.3.6.1.2.1.2.2.1.2.2", "eth1")`:
every wanted name resolved, yet `finished` still false. -/
def exMap2 : MapResult := ⟨false, [("eth0", some "1"), ("eth1", some "2")]⟩

/-- A connection storing an (empty) record under `"h:s"`. -/
def exC8conn : Conn := ⟨[("h:s", Value.dict [])], []⟩

/-- A connection whose read of `"h:s"` raises although a record is
stored there. -/
def exC10conn : Conn := ⟨[("h:s", Value.vint 1)], ["h:s"]⟩

/-- A connection storing `{"a": 1}` under `"h:s"`. -/
def exC2conn : Conn := ⟨[("h:s", Value.dict [("a", Value.vint 1)])], []⟩

/-! ## Association-list and merge lemmas -/

theorem lookupVal_setIn_self {β : Type} (l : List (String × β)) (k : String) (v : β) :
    lookupVal k (setIn l k v) = some v := by
  induction l with
  | nil => simp [setIn, lookupVal]
  | cons hd tl ih =>
    obtain ⟨k', v'⟩ := hd
    by_cases h : k = k' <;> simp [setIn, lookupVal, h, ih]

theorem lookupVal_setIn_ne {β : Type} (l : List (String × β)) (k k' : String) (v : β)
    (h : k' ≠ k) : lookupVal k' (setIn l k v) = lookupVal k' l := by
  induction l with
  | nil => simp [setIn, lookupVal, h]
  | cons hd tl ih =>
    obtain ⟨k₁, v₁⟩ := hd
    by_cases h1 : k = k₁
    · subst h1; simp [setIn, lookupVal, h]
    · by_cases h2 : k' = k₁ <;> simp [setIn, lookupVal, h1, h2, ih]

theorem lookupVal_removeKey_ne {β : Type} (l : List (String × β)) (k k' : String)
    (h : k' ≠ k) : lookupVal k' (removeKey k l) = lookupVal k' l := by
  induction l with
  | nil => simp [removeKey]
  | cons hd tl ih =>
    obtain ⟨k₁, v₁⟩ := hd
    by_cases h1 : k = k₁
    · subst h1; simp [removeKey, lookupVal, h, ih]
    · by_cases h2 : k' = k₁ <;> simp [removeKey, lookupVal, h1, h2, ih]

theorem lookupVal_mergeAssoc_of_nin (k : String) (os : List (String × Value)) :
    ∀ ds, lookupVal k ds = none →
      lookupVal k (mergeAssoc os ds) = lookupVal k os := by
  induction os with
  | nil => intro ds h; simp [mergeAssoc, lookupVal, h]
  | cons hd rest ih =>
    intro ds h
    obtain ⟨k₁, ov⟩ := hd
    rw [mergeAssoc]
    cases h₁ : lookupVal k₁ ds with
    | none =>
      by_cases hk : k = k₁
      · subst hk; simp [lookupVal, ih ds h]
      · simp [lookupVal, hk, ih ds h]
    | some dv =>
      by_cases hk : k = k₁
      · subst hk; rw [h] at h₁; exact absurd h₁ (by simp)
      · have h2 : lookupVal k (removeKey k₁ ds) = none := by
          rw [lookupVal_removeKey_ne _ _ _ hk]; exact h
        cases ov <;> cases dv <;> simp [lookupVal, hk, ih _ h2]

theorem lookupVal_mergeAssoc_dicts (k : String) (os : List (String × Value)) :
    ∀ ds o2 d2, lookupVal k os = some (Value.dict o2) →
      lookupVal k ds = some (Value.dict d2) →
      lookupVal k (mergeAssoc os ds) = some (Value.dict (mergeAssoc o2 d2)) := by
  induction os with
  | nil => intro ds o2 d2 h _; simp [lookupVal] at h
  | cons hd rest ih =>
    intro ds o2 d2 ho hd2
    obtain ⟨k₁, ov⟩ := hd
    by_cases hk : k = k₁
    · subst hk
      have hov : ov = Value.dict o2 := by simpa [lookupVal] using ho
      subst hov
      rw [mergeAssoc, hd2]
      simp [lookupVal]
    · have ho' : lookupVal k rest = some (Value.dict o2) := by
        simpa [lookupVal, hk] using ho
      rw [mergeAssoc]
      cases h₁ : lookupVal k₁ ds with
      | none => simp [lookupVal, hk, ih _ _ _ ho' hd2]
      | some dv =>
        have h2 : lookupVal k (removeKey k₁ ds) = some (Value.dict d2) := by
          rw [lookupVal_removeKey_ne _ _ _ hk]; exact hd2
        cases ov <;> cases dv <;> simp [lookupVal, hk, ih _ _ _ ho' h2]

/-! ## Dispatcher lemmas -/

theorem drainLoop_two {α : Type} (ts : List (Task α)) : drainLoop 2 ts = (ts, []) := by
  cases ts <;> simp [drainLoop]

theorem drainLoop_zero {α : Type} (q : List (Task α)) :
    drainLoop 0 q = (q.drop 2, q.take 2) := by
  match q with
  | [] => simp [drainLoop]
  | [a] => simp [drainLoop]
  | a :: b :: ts => simp [drainLoop, drainLoop_two]

/-! ## Correlator lemmas -/

theorem complete_updOid {α : Type} (rs : List (String × Entry α)) (oid : String) (v : α)
    (now : Nat) (h : complete rs = true) : complete (updOid rs oid v now) = true := by
  simp only [complete, Bool.not_eq_true', List.any_eq_false] at h ⊢
  intro p hp
  simp only [updOid, List.mem_map] at hp
  obtain ⟨q, hq, rfl⟩ := hp
  by_cases he : q.1 = oid
  · simp [he]
  · simpa [he] using h q hq

theorem complete_applyBinds {α : Type} (now : Nat) (varBinds : List (String × α))
    (rs : List (String × Entry α)) (h : complete rs = true) :
    complete (applyBinds now varBinds rs) = true := by
  induction varBinds generalizing rs with
  | nil => simpa [applyBinds]
  | cons p rest ih =>
    simp only [applyBinds, List.foldl_cons] at *
    exact ih _ (complete_updOid _ _ _ _ h)

theorem valueLastKey_ne_valueKey (k : OwnKey) : valueLastKey k ≠ valueKey k := by
  intro h
  have hlen := congrArg String.length h
  simp only [valueLastKey, valueKey, String.length_append] at hlen
  rw [show ("_value_last" : String).length = 11 from rfl,
      show ("_value" : String).length = 6 from rfl] at hlen
  omega

theorem projAll_cons {α : Type} (ds : List (String × List (String × Option α)))
    (e : Entry α) (rest : List (Entry α)) :
    projAll ds (e :: rest) = (projOne ds e).bind fun d2 => projAll d2 rest := by
  cases h : projOne ds e <;> simp [projAll, h]

theorem projAll_append {α : Type} :
    ∀ (l1 l2 : List (Entry α)) (ds ds' : List (String × List (String × Option α))),
      projAll ds (l1 ++ l2) = some ds' →
      ∃ mid, projAll ds l1 = some mid ∧ projAll mid l2 = some ds' := by
  intro l1
  induction l1 with
  | nil => intro l2 ds ds' h; exact ⟨ds, rfl, h⟩
  | cons a t ih =>
    intro l2 ds ds' h
    rw [List.cons_append, projAll_cons] at h
    rw [projAll_cons]
    cases hp : projOne ds a with
    | none => rw [hp] at h; cases h
    | some ds1 =>
      rw [hp] at h
      simp only [Option.some_bind] at h
      obtain ⟨mid, h1, h2⟩ := ih _ _ _ h
      exact ⟨mid, by simp [h1], h2⟩

theorem projAll_preserves_slots {α : Type} (d k1 k2 : String) :
    ∀ (l2 : List (Entry α)) (ds ds' : List (String × List (String × Option α)))
      (sub0 : List (String × Option α)) (w1 w2 : Option (Option α)),
      projAll ds l2 = some ds' →
      (∀ x ∈ l2, x.key.ds_name ≠ d ∨
          (valueLastKey x.key ≠ k1 ∧ valueLastKey x.key ≠ k2 ∧
           valueKey x.key ≠ k1 ∧ valueKey x.key ≠ k2)) →
      lookupVal d ds = some sub0 → lookupVal k1 sub0 = w1 → lookupVal k2 sub0 = w2 →
      ∃ sub', lookupVal d ds' = some sub' ∧ lookupVal k1 sub' = w1 ∧ lookupVal k2 sub' = w2 := by
  intro l2
  induction l2 with
  | nil =>
    intro ds ds' sub0 w1 w2 h _ hd h1 h2
    simp only [projAll, Option.some.injEq] at h
    subst h
    exact ⟨sub0, hd, h1, h2⟩
  | cons x t ih =>
    intro ds ds' sub0 w1 w2 h hcond hd h1 h2
    rw [projAll_cons] at h
    cases hp : projOne ds x with
    | none => rw [hp] at h; cases h
    | some ds1 =>
      rw [hp] at h
      simp only [Option.some_bind] at h
      unfold projOne at hp
      cases hsx : lookupVal x.key.ds_name ds with
      | none => rw [hsx] at hp; cases hp
      | some subx =>
        rw [hsx] at hp
        simp only [Option.some.injEq] at hp
        subst hp
        have hct : ∀ y ∈ t, y.key.ds_name ≠ d ∨
            (valueLastKey y.key ≠ k1 ∧ valueLastKey y.key ≠ k2 ∧
             valueKey y.key ≠ k1 ∧ valueKey y.key ≠ k2) :=
          fun y hy => hcond y (List.mem_cons_of_mem x hy)
        by_cases hdx : x.key.ds_name = d
        · rcases hcond x (List.mem_cons_self x t) with hne | ⟨c1, c2, c3, c4⟩
          · exact absurd hdx hne
          · rw [hdx] at hsx
            rw [hd] at hsx
            have hsub : subx = sub0 := by simpa using hsx.symm
            subst hsub
            refine ih _ _ (setIn (setIn subx (valueLastKey x.key) x.value_last)
                (valueKey x.key) x.value) w1 w2 h hct ?_ ?_ ?_
            · rw [hdx, lookupVal_setIn_self]
            · rw [lookupVal_setIn_ne _ _ _ _ (Ne.symm c3),
                lookupVal_setIn_ne _ _ _ _ (Ne.symm c1)]
              exact h1
            · rw [lookupVal_setIn_ne _ _ _ _ (Ne.symm c4),
                lookupVal_setIn_ne _ _ _ _ (Ne.symm c2)]
              exact h2
        · refine ih _ _ sub0 w1 w2 h hct ?_ h1 h2
          rw [lookupVal_setIn_ne _ _ _ _ fun hh => hdx hh.symm]
          exact hd

/-! ## Cache-store claims -/

/-- Claim C2: `update_service` is non-destructive.  Every key present in
the stored record but absent from the update data is preserved in the
written merged record and still returned by a subsequent `get_service`;
for a key mapped to nested mappings on both sides the merge recurses,
so the preservation holds recursively; and concretely, updating an
empty cache with `{"check_interval":5,"ds":{"x":{"v":1}}}` and then
with `{"ds":{"y":{"v":2}}}` makes `get_service` return
`{"check_interval":5,"ds":{"x":{"v":1},"y":{"v":2}}}`. -/
theorem update_service_nondestructive :
    (∀ (c : Conn) (host service : String) (os ds : List (String × Value)) (k : String)
        (v : Value),
        get_service c host service = some (Value.dict os) →
        lookupVal k ds = none →
        lookupVal k os = some v →
          ∃ c', update_service c host service (Value.dict ds) = some (c', false) ∧
            ∃ m, get_service c' host service = some (Value.dict m) ∧ lookupVal k m = some v) ∧
    (∀ (os ds o2 d2 : List (String × Value)) (k : String),
        lookupVal k os = some (Value.dict o2) →
        lookupVal k ds = some (Value.dict d2) →
        lookupVal k (mergeAssoc os ds) = some (Value.dict (mergeAssoc o2 d2))) ∧
    update_service ⟨[], []⟩ "h" "s" scnD1 = some (⟨[("h:s", scnD1)], []⟩, false) ∧
    update_service ⟨[("h:s", scnD1)], []⟩ "h" "s" scnD2 = some (⟨[("h:s", scnMerged)], []⟩, false) ∧
    get_service ⟨[("h:s", scnMerged)], []⟩ "h" "s" = some scnMerged := by
  refine ⟨?_, fun os ds o2 d2 k => lookupVal_mergeAssoc_dicts k os ds o2 d2, rfl, ?_, rfl⟩
  · intro c host service os ds k v hget hnd hov
    by_cases hf : build_key host service ∈ c.failing
    · simp [get_service, db_get, hf] at hget
    · have hkv : lookupVal (build_key host service) c.kv = some (Value.dict os) := by
        cases hl : lookupVal (build_key host service) c.kv with
        | none => simp [get_service, db_get, hf, hl] at hget
        | some w => simp [get_service, db_get, hf, hl] at hget; rw [hget]
      refine ⟨db_set c (build_key host service) (Value.dict (mergeAssoc os ds)), ?_, ?_⟩
      · simp [update_service, db_get, hf, hkv, merge_dicts]
      · refine ⟨mergeAssoc os ds, ?_, ?_⟩
        · simp [get_service, db_get, db_set, hf, lookupVal_setIn_self]
        · rw [lookupVal_mergeAssoc_of_nin k os ds hnd]; exact hov
  · simp [update_service, db_get, db_set, scnD1, scnD2, scnMerged, merge_dicts,
      mergeAssoc, lookupVal, removeKey, setIn, build_key]

/-- Witness for claim C2's preservation part at a concrete input. -/
theorem update_service_nondestructive_witness :
    ∃ c', update_service exC2conn "h" "s" (Value.dict []) = some (c', false) ∧
      ∃ m, get_service c' "h" "s" = some (Value.dict m) ∧
        lookupVal "a" m = some (Value.vint 1) :=
  update_service_nondestructive.1 exC2conn "h" "s" [("a", Value.vint 1)] [] "a"
    (Value.vint 1) rfl rfl rfl

/-- Claim C8: `update_service` fails atomically on an invalid merge:
when merging the existing record with the data yields `none`, it
returns the retryable error flag and the connection state is unchanged
(no write); otherwise it writes exactly the merged record. -/
theorem update_service_atomic :
    ∀ (c : Conn) (host service : String) (data : Value),
      build_key host service ∉ c.failing →
        (merge_dicts (lookupVal (build_key host service) c.kv) data = none →
            update_service c host service data = some (c, true)) ∧
        (∀ m, merge_dicts (lookupVal (build_key host service) c.kv) data = some m →
            update_service c host service data =
              some (db_set c (build_key host service) m, false)) := by
  intro c host service data hf
  constructor
  · intro hm; simp [update_service, db_get, hf, hm]
  · intro m hm; simp [update_service, db_get, hf, hm]

/-- Witness for claim C8: merging a stored record with non-mapping data
is invalid, so nothing is written and the error flag is returned. -/
theorem update_service_atomic_witness :
    update_service exC8conn "h" "s" (Value.vint 3) = some (exC8conn, true) :=
  (update_service_atomic exC8conn "h" "s" (Value.vint 3) (by simp [exC8conn, build_key])).1 rfl

/-- Claim C10: `get_service` returns `none` both when the key is absent
and when the backing read raises (which is caught), so the two cases
are indistinguishable to the caller; any `some` result is exactly the
decoded stored record. -/
theorem get_service_conflates :
    ∀ (c : Conn) (host service : String),
      (build_key host service ∈ c.failing → get_service c host service = none) ∧
      (lookupVal (build_key host service) c.kv = none →
          get_service c host service = none) ∧
      (∀ v, get_service c host service = some v →
          build_key host service ∉ c.failing ∧
          lookupVal (build_key host service) c.kv = some v) := by
  intro c host service
  refine ⟨fun h => by simp [get_service, db_get, h], fun h => ?_, fun v h => ?_⟩
  · by_cases hf : build_key host service ∈ c.failing <;>
      simp [get_service, db_get, hf, h]
  · by_cases hf : build_key host service ∈ c.failing
    · simp [get_service, db_get, hf] at h
    · refine ⟨hf, ?_⟩
      cases hl : lookupVal (build_key host service) c.kv with
      | none => simp [get_service, db_get, hf, hl] at h
      | some w => simp [get_service, db_get, hf, hl] at h; rw [h]

/-- Witness for claim C10: a failing read hides a stored record behind
the same `none` an absent key produces. -/
theorem get_service_conflates_witness : get_service exC10conn "h" "s" = none :=
  (get_service_conflates exC10conn "h" "s").1 (by simp [exC10conn, build_key])

/-! ## Dispatcher claims -/

/-- Claim C5 (counterexample): dequeuing a task of unknown type `"walk"`
drops it — it is dequeued, `task_done` is called, and it is never
submitted — but the drop is signalled nowhere: the cycle produces no
log or report at all, contradicting the claim that the drop is logged
and reported rather than silent. -/
theorem run_cycle_drop_unreported :
    (runCycle [(⟨"walk", 0⟩ : Task Nat)]).dequeued = [⟨"walk", 0⟩] ∧
    (runCycle [(⟨"walk", 0⟩ : Task Nat)]).submissions = [] ∧
    (runCycle [(⟨"walk", 0⟩ : Task Nat)]).taskDone = 1 ∧
    (runCycle [(⟨"walk", 0⟩ : Task Nat)]).logs = [] := by
  refine ⟨rfl, rfl, rfl, rfl⟩

/-- Claim C5 (amended): a dequeued task whose type is not one of
`get`/`next`/`bulk` is never submitted to the transport and the loop is
not aborted — every dequeued task gets its `task_done`, the cycle still
runs to its fixed sleep — but the drop is silent: the loop body emits
no log or report. -/
theorem run_cycle_silent_drop :
    ∀ (α : Type) (q : List (Task α)),
      (runCycle q).logs = [] ∧
      (runCycle q).taskDone = (runCycle q).dequeued.length ∧
      (runCycle q).sleepMs = 500 ∧
      (runCycle q).submissions = (runCycle q).dequeued.filterMap submitOf ∧
      (∀ t : Task α, t.type ≠ "bulk" → t.type ≠ "next" → t.type ≠ "get" →
          submitOf t = none) := by
  intro α q
  refine ⟨rfl, rfl, rfl, rfl, fun t h1 h2 h3 => ?_⟩
  simp [submitOf, h1, h2, h3]

/-- Witness for claim C5's amended statement: the unknown type `"walk"`
is submitted nowhere. -/
theorem run_cycle_silent_drop_witness : submitOf (⟨"walk", 0⟩ : Task Nat) = none :=
  (run_cycle_silent_drop Nat []).2.2.2.2 ⟨"walk", 0⟩ (by decide) (by decide) (by decide)

/-- Claim C6: in one dispatcher cycle at most two tasks are dequeued
(the burst bound), each known-type task is submitted to the matching
asynchronous operation, the transport's pending-I/O step runs exactly
once iff at least one task was dequeued, and the cycle ends with the
fixed 0.5-second (500 ms) sleep. -/
theorem run_cycle_burst :
    ∀ (α : Type) (q : List (Task α)),
      (runCycle q).dequeued = q.take 2 ∧
      (runCycle q).remaining = q.drop 2 ∧
      (runCycle q).dequeued.length ≤ 2 ∧
      (runCycle q).submissions = (runCycle q).dequeued.filterMap submitOf ∧
      (∀ t ∈ (runCycle q).dequeued,
          (t.type = "bulk" → (Op.asyncBulkCmd, t.data) ∈ (runCycle q).submissions) ∧
          (t.type = "next" → (Op.asyncNextCmd, t.data) ∈ (runCycle q).submissions) ∧
          (t.type = "get" → (Op.asyncGetCmd, t.data) ∈ (runCycle q).submissions)) ∧
      ((runCycle q).dispatcherRuns = 1 ↔ (runCycle q).dequeued ≠ []) ∧
      (runCycle q).dispatcherRuns ≤ 1 ∧
      (runCycle q).sleepMs = 500 := by
  intro α q
  have hd : (runCycle q).dequeued = q.take 2 := by simp [runCycle, drainLoop_zero]
  have hr : (runCycle q).remaining = q.drop 2 := by simp [runCycle, drainLoop_zero]
  have hs : (runCycle q).submissions = (runCycle q).dequeued.filterMap submitOf := rfl
  refine ⟨hd, hr, ?_, hs, fun t ht => ?_, ?_, ?_, rfl⟩
  · rw [hd]; exact List.length_take_le 2 q
  · refine ⟨fun hb => ?_, fun hb => ?_, fun hb => ?_⟩ <;>
      exact hs ▸ List.mem_filterMap.mpr ⟨t, ht, by simp [submitOf, hb]⟩
  · cases q with
    | nil => simp [runCycle, drainLoop]
    | cons a ts => simp [runCycle, drainLoop_zero]
  · cases q with
    | nil => simp [runCycle, drainLoop]
    | cons a ts => simp [runCycle, drainLoop_zero]

/-- Witness for claim C6: a queued bulk task is submitted to
`asyncBulkCmd`. -/
theorem run_cycle_burst_witness :
    (Op.asyncBulkCmd, 0) ∈ (runCycle [(⟨"bulk", 0⟩ : Task Nat)]).submissions :=
  ((run_cycle_burst Nat [⟨"bulk", 0⟩]).2.2.2.2.1 ⟨"bulk", 0⟩ (by decide)).1 rfl

/-! ## Result-correlator claims -/

/-- Claim C1: on each delivered batch `callback_get` branches on the
completion test of the updated accumulator (no null-valued entry
remains); while incomplete only the accumulator mutates — the output
channel and the service placeholder are untouched; on a delivery that
finds the accumulator complete, the full accumulator snapshot is
appended to the output channel exactly once.  Concretely, on the
accumulator `{oidA:null, oidB:null}` delivering `oidA=1` leaves it
incomplete with no emission, and then delivering `oidB=2` completes it
with exactly one emission. -/
theorem callback_get_correlation :
    (∀ (α : Type) (now : Nat) (varBinds : List (String × α)) (st st' : CbState α),
        callback_get now varBinds st = some st' →
          (complete st'.results = false →
            st'.result_queue = st.result_queue ∧ st'.service_result = st.service_result) ∧
          (complete st'.results = true →
            st'.result_queue = st.result_queue ++ [st'.results])) ∧
    callback_get 1 [("A", (1 : Int))] exC1st0 = some exC1st1 ∧
    complete exC1st1.results = false ∧
    exC1st1.result_queue = [] ∧
    callback_get 2 [("B", 2)] exC1st1 = some exC1st2 ∧
    complete exC1st2.results = true ∧
    exC1st2.result_queue = [exC1st2.results] := by
  refine ⟨?_, rfl, rfl, rfl, rfl, rfl, rfl⟩
  intro α now varBinds st st' hcb
  unfold callback_get at hcb
  cases hc : complete (applyBinds now varBinds st.results) with
  | false =>
    simp only [hc, Bool.false_eq_true, if_false, Option.some.injEq] at hcb
    subst hcb
    constructor
    · exact fun _ => ⟨rfl, rfl⟩
    · intro ht
      rw [hc] at ht
      cases ht
  | true =>
    simp only [hc, if_true] at hcb
    cases hp : projAll st.service_result.db_data.ds
        ((applyBinds now varBinds st.results).map Prod.snd |>.filter
          (matchesService st.service_result)) with
    | none => rw [hp] at hcb; cases hcb
    | some ds2 =>
      rw [hp] at hcb
      simp only [Option.some.injEq] at hcb
      subst hcb
      constructor
      · intro hf
        rw [hc] at hf
        cases hf
      · exact fun _ => rfl

/-- Witness for claim C1's general part, at the first scenario
delivery. -/
theorem callback_get_correlation_witness :
    exC1st1.result_queue = exC1st0.result_queue ∧
      exC1st1.service_result = exC1st0.service_result :=
  (callback_get_correlation.1 Int 1 [("A", 1)] exC1st0 exC1st1 rfl).1 rfl

/-- Claim C7: completion is monotone — once no accumulator entry is
null, any further delivery processed by `callback_get` leaves the
accumulator complete (values are only ever overwritten with delivered,
non-null values). -/
theorem complete_monotone :
    ∀ (α : Type) (now : Nat) (varBinds : List (String × α)) (st st' : CbState α),
      complete st.results = true →
      callback_get now varBinds st = some st' →
      complete st'.results = true := by
  intro α now varBinds st st' h hcb
  have hc : complete (applyBinds now varBinds st.results) = true :=
    complete_applyBinds now varBinds st.results h
  unfold callback_get at hcb
  simp only [hc, if_true] at hcb
  cases hp : projAll st.service_result.db_data.ds
      ((applyBinds now varBinds st.results).map Prod.snd |>.filter
        (matchesService st.service_result)) with
  | none => rw [hp] at hcb; cases hcb
  | some ds2 =>
    rw [hp] at hcb
    simp only [Option.some.injEq] at hcb
    subst hcb
    exact hc

/-- Witness for claim C7: a complete single-entry accumulator stays
complete across an empty delivery. -/
theorem complete_monotone_witness : complete exC7st1.results = true :=
  complete_monotone Int 5 [] exC7st0 exC7st1 rfl rfl

/-- Claim C9 (implicit): there is no once-per-request latch — every
`callback_get` invocation on an already complete accumulator (whatever
the delivery, even empty) emits the snapshot to the result queue again
and re-runs the projection, re-stamping `last_check_time` from the old
`check_time`, writing a fresh `check_time`, and setting the state to
`received`. -/
theorem callback_get_no_latch :
    ∀ (α : Type) (now : Nat) (varBinds : List (String × α)) (st st' : CbState α),
      complete st.results = true →
      callback_get now varBinds st = some st' →
        st'.result_queue = st.result_queue ++ [st'.results] ∧
        st'.service_result.db_data.last_check_time = st.service_result.db_data.check_time ∧
        st'.service_result.db_data.check_time = some now ∧
        st'.service_result.state = "received" := by
  intro α now varBinds st st' h hcb
  have hc : complete (applyBinds now varBinds st.results) = true :=
    complete_applyBinds now varBinds st.results h
  unfold callback_get at hcb
  simp only [hc, if_true] at hcb
  cases hp : projAll st.service_result.db_data.ds
      ((applyBinds now varBinds st.results).map Prod.snd |>.filter
        (matchesService st.service_result)) with
  | none => rw [hp] at hcb; cases hcb
  | some ds2 =>
    rw [hp] at hcb
    simp only [Option.some.injEq] at hcb
    subst hcb
    refine ⟨rfl, rfl, rfl, rfl⟩

/-- Witness for claim C9: re-delivering nothing to a complete
accumulator emits the snapshot again and re-stamps the service. -/
theorem callback_get_no_latch_witness :
    exC7st1.result_queue = exC7st0.result_queue ++ [exC7st1.results] ∧
      exC7st1.service_result.db_data.last_check_time =
        exC7st0.service_result.db_data.check_time ∧
      exC7st1.service_result.db_data.check_time = some 5 ∧
      exC7st1.service_result.state = "received" :=
  callback_get_no_latch Int 5 [] exC7st0 exC7st1 rfl rfl

/-- Claim C3 (counterexample): the completed correlator writes the
accumulator entry's stored `value_last` field (99) into
`ds.x.max_value_last` — it does not rotate the record's current
`ds.x.max_value` (10) there, so the rotation stated by the claim does
not happen. -/
theorem callback_get_rotation_cex :
    ((callback_get 200 [("1.2", (7 : Int))] exC3st0).bind fun st =>
        (lookupVal "x" st.service_result.db_data.ds).bind
          (lookupVal "ds.x.max_value_last")) = some (some 99) ∧
    ((lookupVal "x" exC3st0.service_result.db_data.ds).bind
        (lookupVal "ds.x.max_value")) = some (some 10) ∧
    (some (some (99 : Int)) : Option (Option Int)) ≠ some (some 10) := by
  refine ⟨rfl, rfl, by decide⟩

/-- Claim C3 (amended): when the accumulator completes, then for each
accumulator entry whose owning key matches the triggering service —
taken at any position `l1 ++ e :: l2` of the matching list, and not
overwritten afterwards (every later matching entry either owns a
different datasource name or writes different slot keys, which the
dict-write loop of the source forces) — the correlator writes that
entry's stored `value_last` field into `ds.<name>.<type>_value_last`
(not a rotation of the record's current `_value`), writes the received
value into `ds.<name>.<type>_value`, copies the record's `check_time`
into `last_check_time`, stamps a fresh `check_time`, and sets the state
to `received`. -/
theorem callback_get_value_last_source :
    ∀ (α : Type) (now : Nat) (varBinds : List (String × α)) (st st' : CbState α)
      (l1 l2 : List (Entry α)) (e : Entry α),
      callback_get now varBinds st = some st' →
      complete (applyBinds now varBinds st.results) = true →
      ((applyBinds now varBinds st.results).map Prod.snd |>.filter
          (matchesService st.service_result)) = l1 ++ e :: l2 →
      (∀ x ∈ l2, x.key.ds_name ≠ e.key.ds_name ∨
          (valueLastKey x.key ≠ valueLastKey e.key ∧ valueLastKey x.key ≠ valueKey e.key ∧
           valueKey x.key ≠ valueLastKey e.key ∧ valueKey x.key ≠ valueKey e.key)) →
        (∃ sub', lookupVal e.key.ds_name st'.service_result.db_data.ds = some sub' ∧
           lookupVal (valueLastKey e.key) sub' = some e.value_last ∧
           lookupVal (valueKey e.key) sub' = some e.value) ∧
        st'.service_result.db_data.last_check_time = st.service_result.db_data.check_time ∧
        st'.service_result.db_data.check_time = some now ∧
        st'.service_result.state = "received" := by
  intro α now varBinds st st' l1 l2 e hcb hc hfil hcond
  unfold callback_get at hcb
  simp only [hc, if_true] at hcb
  rw [hfil] at hcb
  cases hp : projAll st.service_result.db_data.ds (l1 ++ e :: l2) with
  | none => rw [hp] at hcb; cases hcb
  | some ds2 =>
    rw [hp] at hcb
    simp only [Option.some.injEq] at hcb
    subst hcb
    refine ⟨?_, rfl, rfl, rfl⟩
    obtain ⟨mid, hm1, hm2⟩ := projAll_append l1 (e :: l2) _ _ hp
    rw [projAll_cons] at hm2
    cases hse : projOne mid e with
    | none => rw [hse] at hm2; cases hm2
    | some mid2 =>
      rw [hse] at hm2
      simp only [Option.some_bind] at hm2
      unfold projOne at hse
      cases hsub : lookupVal e.key.ds_name mid with
      | none => rw [hsub] at hse; cases hse
      | some sube =>
        rw [hsub] at hse
        simp only [Option.some.injEq] at hse
        subst hse
        refine projAll_preserves_slots e.key.ds_name (valueLastKey e.key) (valueKey e.key)
          l2 _ ds2 _ (some e.value_last) (some e.value) hm2 hcond
          (lookupVal_setIn_self _ _ _) ?_ ?_
        · rw [lookupVal_setIn_ne _ _ _ _ (valueLastKey_ne_valueKey e.key)]
          exact lookupVal_setIn_self _ _ _
        · exact lookupVal_setIn_self _ _ _

/-- Witness for claim C3's amended statement at a two-datasource state:
the theorem is applied once per matching entry, for `x` at the head of
the matching list and for `y` at its tail. -/
theorem callback_get_value_last_source_witness :
    (∃ sub', lookupVal "x" exC3mst1.service_result.db_data.ds = some sub' ∧
       lookupVal "ds.x.max_value_last" sub' = some (some (99 : Int)) ∧
       lookupVal "ds.x.max_value" sub' = some (some 7)) ∧
    (∃ sub', lookupVal "y" exC3mst1.service_result.db_data.ds = some sub' ∧
       lookupVal "ds.y.max_value_last" sub' = some (some (88 : Int)) ∧
       lookupVal "ds.y.max_value" sub' = some (some 8)) ∧
    exC3mst1.service_result.state = "received" := by
  have hx := callback_get_value_last_source Int 200 [("1.1", 7), ("1.2", 8)] exC3mst0 exC3mst1
    [] [⟨some 8, some 200, some 88, exKeyY⟩] ⟨some 7, some 200, some 99, exKeyX⟩
    rfl rfl rfl (by decide)
  have hy := callback_get_value_last_source Int 200 [("1.1", 7), ("1.2", 8)] exC3mst0 exC3mst1
    [⟨some 7, some 200, some 99, exKeyX⟩] [] ⟨some 8, some 200, some 88, exKeyY⟩
    rfl rfl rfl (by decide)
  exact ⟨hx.1, hy.1, hy.2.2.2⟩

/-! ## Mapping-walker claim -/

/-- Claim C4 (code defect): walking the scenario rows with wanted names
`{eth0, eth1}` resolves `eth0` to index 1 after the first row and both
names after the second, but the walker still reports `finished = false`
and signals "continue" after the second row although every wanted name
is resolved: the completion test `all(result.values())` ranges over the
context dict (whose `finished` entry is still false) rather than over
the discovered data, so it can never fire while walking. -/
theorem callback_mapping_next_misses_completion :
    callback_mapping_next exMapOid [[("1.3.6.1.2.1.2.2.1.2.1", "eth0")]] exMap0 =
        (exMap1, true) ∧
      callback_mapping_next exMapOid [[("1.3.6.1.2.1.2.2.1.2.2", "eth1")]] exMap1 =
        (exMap2, true) ∧
      exMap2.data.all (fun p => p.2.isSome) = true ∧
      exMap2.finished = false := by
  refine ⟨rfl, rfl, rfl, rfl⟩

end SnmpBooster
